import Mathlib

/-!
Verification of the statistics and time-conversion utilities of pypengie
(src/datatools.py and src/utils.py) against their natural-language
specification.  Python functions are shallowly embedded: numeric samples
become `List ℚ`, raised exceptions become `Except PyError`, Python floor
division `//` becomes `Int.fdiv`, and Python true division on the final
seconds component becomes division in `ℚ`.
-/

namespace Pypengie

/-- Kinds of Python exceptions raised by the library (spec section 7). -/
inductive PyError where
  | typeError
  | valueError
  | attributeError
  | nameError
  deriving DecidableEq

/-- Embedding of `loctime2int` (src/utils.py lines 88-100): validates the time
components with `if minutes > 60 or seconds > 60 or hours > 24` and then
`if minutes < 0 or seconds < 0 or hours < 0`, raising `AttributeError` when a
check fires, and otherwise returns
`mod * 3600 * hours + mod * 60 * minutes + mod * seconds`. -/
def loctime2int (hours minutes seconds mod : ℤ) : Except PyError ℤ :=
  if minutes > 60 ∨ seconds > 60 ∨ hours > 24 then
    Except.error PyError.attributeError
  else if minutes < 0 ∨ seconds < 0 ∨ hours < 0 then
    Except.error PyError.attributeError
  else
    Except.ok (mod * 3600 * hours + mod * 60 * minutes + mod * seconds)

/-- Embedding of `int2loctime` (src/utils.py lines 103-115):
`hours = time // (3600*mod)`, `minutes = (time - hours*3600*mod) // (60*mod)`,
`seconds = (time - hours*3600*mod - minutes*60*mod) / mod`.  Python `//` on
integers is floor division, hence `Int.fdiv`; the final `/ mod` is true
division returning a float, modelled in `ℚ`. -/
def int2loctime (time mod : ℤ) : ℤ × ℤ × ℚ :=
  let hours := Int.fdiv time (3600 * mod)
  let minutes := Int.fdiv (time - hours * 3600 * mod) (60 * mod)
  let seconds : ℚ :=
    ((time - hours * 3600 * mod - minutes * 60 * mod : ℤ) : ℚ) / (mod : ℚ)
  (hours, minutes, seconds)

/-- A value as returned by `clean3sigma` (src/datatools.py): a boolean mask,
a filtered array, or the `np.nan` sentinel returned from its except branch. -/
inductive PyVal where
  | mask (m : List Bool)
  | arr (d : List ℚ)
  | nanVal
  deriving DecidableEq

/-- Embedding of `np.mean(data)`: the arithmetic mean of the sample. -/
def npMean (d : List ℚ) : ℚ := d.sum / d.length

/-- Embedding of the square of `np.std(data)` (ddof = 0), i.e. `np.var(data)`:
the mean of the squared deviations from the mean.  `np.std` itself is the
square root of this quantity. -/
def npVar (d : List ℚ) : ℚ := (d.map (fun x => (x - npMean d) ^ 2)).sum / d.length

/-- Embedding of the elementwise test `np.abs(data - data_mean) <= data_std`
from `clean3sigma` (src/datatools.py line 48).  `data_std` is the square root
of `npVar d` and both sides of the comparison are nonnegative, so
`|x - μ| ≤ √v` is equivalent to `(x - μ)² ≤ v`; the squared form keeps the
definition computable over ℚ; a theorem below proves the equivalence with
the square-root form over ℝ. -/
def data_mask (d : List ℚ) : List Bool :=
  d.map (fun x => decide ((x - npMean d) ^ 2 ≤ npVar d))

/-- Embedding of `clean3sigma` (src/datatools.py lines 31-52).  `none` models a
non-numeric input, on which `np.mean` raises `TypeError`; the `except` branch
catches it, prints a message, and returns `np.nan` — an ordinary value, not an
exception, hence `.ok .nanVal`.  On a numeric sample the function returns the
boolean mask when `mask` is true and `data[data_mask]` otherwise. -/
def clean3sigma (data : Option (List ℚ)) (mask : Bool) : Except PyError PyVal :=
  match data with
  | none => Except.ok PyVal.nanVal
  | some d =>
    if mask then Except.ok (PyVal.mask (data_mask d))
    else Except.ok (PyVal.arr
      ((d.zip (data_mask d)).filterMap fun p => if p.2 then some p.1 else none))

/-- Embedding of `var_interv` (src/datatools.py lines 55-66) on a valid
sequence input: the comprehension
`[(data[i] + data[i + 1]) / 2 for i in range(len(data) - 1)]`. -/
def var_interv (data : List ℚ) : List ℚ :=
  (List.range (data.length - 1)).map
    (fun i => (data.getD i 0 + data.getD (i + 1) 0) / 2)

/-- Embedding of `phi` (src/datatools.py lines 69-79):
`1 / np.sqrt(2*np.pi) * np.power(np.e, -np.square(u)/2)`.  The source declares
a spurious `self` first parameter even though it is a free function; the
embedding keeps it, unused, as in the source. -/
noncomputable def phi (self : Unit) (u : ℝ) : ℝ :=
  1 / Real.sqrt (2 * Real.pi) * Real.exp 1 ^ (-(u ^ 2) / 2)

/-- Embedding of the hypothesis flags computed by `chi2test`
(src/datatools.py lines 131-132): the entry H0 holds `chi2exp < chi2Cr` and
the entry H1 holds `chi2exp > chi2Cr`, as a function of the computed test statistic and
critical value.  (The source record literal is missing the comma between the
two fields — a syntactic defect; the two intended entries are embedded.) -/
def chi2flags (chi2exp chi2Cr : ℚ) : Bool × Bool :=
  (decide (chi2exp < chi2Cr), decide (chi2exp > chi2Cr))

/-- Embedding of `conf_level` (src/datatools.py lines 136-181).  On a
non-numeric input (`none`) `np.mean` raises and the except branch re-raises
`TypeError`.  On a numeric sample: the `var` branch evaluates
`t.ppf(1 - alpha/2, n - 1)` where the name `alpha` is unbound, and the
`std` branch evaluates `self.alpha` where `self` is unbound (the function is
not a method) — each raises `NameError` before any bound is computed; an
unrecognized method raises `AttributeError`. -/
def conf_level (data : Option (List ℚ)) (method : String) :
    Except PyError (ℚ × ℚ) :=
  match data with
  | none => Except.error PyError.typeError
  | some _ =>
    if method = "var" then Except.error PyError.nameError
    else if method = "std" then Except.error PyError.nameError
    else Except.error PyError.attributeError

/-- Embedding of `conf_clean` (src/datatools.py lines 184-197), with the
leave-one-out interval computation — the ul field of `conf_level(data_miss)`
— abstracted as the parameter `cl` returning the pair (upper, lower); the
source function `conf_level` itself raises `NameError` on every call (see
`conf_level`), and the abstraction exhibits the control flow of `conf_clean`
independently of that defect.  In the source the `return mask` statement is
indented inside the `for` body, so the function returns at the end of the
FIRST iteration, with `data_miss = np.delete(data, 0)`; on an empty input the
loop body never runs and the function falls through, returning the Python
value `None` (`none`). -/
def conf_clean (cl : List ℚ → ℚ × ℚ) (data : List ℚ) : Option (List Bool) :=
  match data with
  | [] => none
  | x :: rest =>
    let p := cl rest
    some [decide (p.2 ≤ x ∧ x ≤ p.1)]


/-- C4, counterexample: `loctime2int` ACCEPTS hours = 24 and minutes = 60
(the validation uses strict `>`), returning ordinary values rather than
failing, contrary to the claim that these boundary inputs fail. -/
theorem C4_loctime2int_boundary_counterexample :
    loctime2int 24 0 0 1 = Except.ok 86400 ∧
      loctime2int 0 60 0 1 = Except.ok 3600 ∧
      (∀ e, loctime2int 24 0 0 1 ≠ Except.error e) := by
  refine ⟨rfl, rfl, ?_⟩
  intro e h
  simp [loctime2int] at h

/-- C4, amended: `loctime2int` fails with an input-validation error exactly
when hours > 24, minutes > 60, seconds > 60, or one of the three components
is negative; the boundary values hours = 24, minutes = 60 and seconds = 60
themselves are accepted. -/
theorem C4_loctime2int_error_iff (h m s mo : ℤ) :
    (∃ e, loctime2int h m s mo = Except.error e) ↔
      (24 < h ∨ 60 < m ∨ 60 < s ∨ h < 0 ∨ m < 0 ∨ s < 0) := by
  unfold loctime2int
  split_ifs with h1 h2
  · constructor
    · intro _; omega
    · intro _; exact ⟨PyError.attributeError, rfl⟩
  · constructor
    · intro _; omega
    · intro _; exact ⟨PyError.attributeError, rfl⟩
  · constructor
    · rintro ⟨e, he⟩; cases he
    · intro hd; omega

/-- C5: for all valid clock components h ∈ [0,23], m, s ∈ [0,59] and
mod ∈ {1, 1000}, `loctime2int` succeeds and `int2loctime` inverts it,
recovering the triple (h, m, s) (the seconds come back via true division,
hence as the rational s). -/
theorem C5_loctime_roundtrip (h m s mo : ℤ)
    (hh : 0 ≤ h ∧ h ≤ 23) (hm : 0 ≤ m ∧ m ≤ 59) (hs : 0 ≤ s ∧ s ≤ 59)
    (hmo : mo = 1 ∨ mo = 1000) :
    ∃ t, loctime2int h m s mo = Except.ok t ∧
      int2loctime t mo = (h, m, (s : ℚ)) := by
  refine ⟨mo * 3600 * h + mo * 60 * m + mo * s, ?_, ?_⟩
  · have c1 : ¬(m > 60 ∨ s > 60 ∨ h > 24) := by omega
    have c2 : ¬(m < 0 ∨ s < 0 ∨ h < 0) := by omega
    simp [loctime2int, c1, c2]
  · rcases hmo with rfl | rfl
    · have e1 : ∀ a : ℤ, Int.fdiv a (3600 * 1) = a / (3600 * 1) :=
        fun a => Int.fdiv_eq_ediv a (by norm_num)
      have e2 : ∀ a : ℤ, Int.fdiv a (60 * 1) = a / (60 * 1) :=
        fun a => Int.fdiv_eq_ediv a (by norm_num)
      simp only [int2loctime, e1, e2, Prod.mk.injEq]
      norm_num
      refine ⟨by omega, by omega, ?_⟩
      have hX : (3600 * h + 60 * m + s) / 3600 = h := by omega
      rw [hX]
      have hY : (3600 * h + 60 * m + s - h * 3600) / 60 = m := by omega
      rw [hY]
      ring
    · have e1 : ∀ a : ℤ, Int.fdiv a (3600 * 1000) = a / (3600 * 1000) :=
        fun a => Int.fdiv_eq_ediv a (by norm_num)
      have e2 : ∀ a : ℤ, Int.fdiv a (60 * 1000) = a / (60 * 1000) :=
        fun a => Int.fdiv_eq_ediv a (by norm_num)
      simp only [int2loctime, e1, e2, Prod.mk.injEq]
      norm_num
      refine ⟨by omega, by omega, ?_⟩
      have hX : (3600000 * h + 60000 * m + 1000 * s) / 3600000 = h := by omega
      rw [hX]
      have hY : (3600000 * h + 60000 * m + 1000 * s - h * 3600 * 1000)
          / 60000 = m := by omega
      rw [hY]
      rw [div_eq_iff (by norm_num : (1000 : ℚ) ≠ 0)]
      ring

/-- C5 witness at h = 23, m = 59, s = 59, mod = 1000. -/
theorem C5_loctime_roundtrip_witness :
    ∃ t, loctime2int 23 59 59 1000 = Except.ok t ∧
      int2loctime t 1000 = (23, 59, (59 : ℚ)) :=
  C5_loctime_roundtrip 23 59 59 1000 (by omega) (by omega) (by omega) (Or.inr rfl)

/-- C10: for every non-negative time and every mod ≥ 1, the minutes and
seconds components of `int2loctime` lie in [0, 60). -/
theorem C10_int2loctime_min_sec_bounds (time mod : ℤ)
    (ht : 0 ≤ time) (hmo : 1 ≤ mod) :
    0 ≤ (int2loctime time mod).2.1 ∧ (int2loctime time mod).2.1 < 60 ∧
      0 ≤ (int2loctime time mod).2.2 ∧ (int2loctime time mod).2.2 < 60 := by
  have hb : (0 : ℤ) < 3600 * mod := by positivity
  have hb60 : (0 : ℤ) < 60 * mod := by positivity
  have e1 : Int.fdiv time (3600 * mod) = time / (3600 * mod) :=
    Int.fdiv_eq_ediv time (le_of_lt hb)
  simp only [int2loctime, e1]
  have hr : time - time / (3600 * mod) * 3600 * mod = time % (3600 * mod) := by
    rw [Int.emod_def]; ring
  rw [hr]
  set r := time % (3600 * mod) with hrdef
  have hr0 : 0 ≤ r := Int.emod_nonneg time (ne_of_gt hb)
  have hr1 : r < 3600 * mod := Int.emod_lt_of_pos time hb
  have e2 : Int.fdiv r (60 * mod) = r / (60 * mod) :=
    Int.fdiv_eq_ediv r (le_of_lt hb60)
  rw [e2]
  have hm0 : 0 ≤ r / (60 * mod) := Int.ediv_nonneg hr0 (le_of_lt hb60)
  have hm1 : r / (60 * mod) < 60 := by
    rw [Int.ediv_lt_iff_lt_mul hb60]
    calc r < 3600 * mod := hr1
    _ = 60 * (60 * mod) := by ring
  have hr2 : r - r / (60 * mod) * 60 * mod = r % (60 * mod) := by
    rw [Int.emod_def]; ring
  rw [hr2]
  have hs0 : 0 ≤ r % (60 * mod) := Int.emod_nonneg r (ne_of_gt hb60)
  have hs1 : r % (60 * mod) < 60 * mod := Int.emod_lt_of_pos r hb60
  have hmoQ : (0 : ℚ) < (mod : ℚ) := by exact_mod_cast hmo.trans_lt' (by norm_num)
  refine ⟨hm0, hm1, ?_, ?_⟩
  · apply div_nonneg _ (le_of_lt hmoQ)
    exact_mod_cast hs0
  · rw [div_lt_iff hmoQ]
    have : ((r % (60 * mod) : ℤ) : ℚ) < ((60 * mod : ℤ) : ℚ) := by
      exact_mod_cast hs1
    calc ((r % (60 * mod) : ℤ) : ℚ) < ((60 * mod : ℤ) : ℚ) := this
    _ = 60 * (mod : ℚ) := by push_cast; ring

/-- C10 witness at time = 3661, mod = 1. -/
theorem C10_int2loctime_min_sec_bounds_witness :
    0 ≤ (int2loctime 3661 1).2.1 ∧ (int2loctime 3661 1).2.1 < 60 ∧
      0 ≤ (int2loctime 3661 1).2.2 ∧ (int2loctime 3661 1).2.2 < 60 :=
  C10_int2loctime_min_sec_bounds 3661 1 (by omega) (by omega)

/-- C1: code bug — on the sample [1, 2, 3] `conf_clean` returns a mask of
length 1, whatever interval the leave-one-out computation yields: the `return`
inside the loop exits after the first iteration, so the mask length does not
equal the sample length (3) and only index 0 is decided. -/
theorem C1_conf_clean_mask_length_bug :
    ∀ cl : List ℚ → ℚ × ℚ, ∃ b : Bool,
      conf_clean cl [1, 2, 3] = some [b] ∧
        Option.map List.length (conf_clean cl [1, 2, 3]) = some 1 :=
  fun _ => ⟨_, rfl, rfl⟩

/-- C2, counterexample: at a tie `chi2exp = chi2Cr = 1` both strict
comparisons are false, so neither the H0 flag nor the H1 flag holds — the two
flags are not exhaustive at equality. -/
theorem C2_chi2flags_tie_counterexample :
    (chi2flags 1 1).1 = false ∧ (chi2flags 1 1).2 = false := by decide

/-- C2, amended: the H0 and H1 flags are mutually exclusive for every input,
and exactly one of them is true precisely when the test statistic differs from
the critical value; when the statistic equals the critical value both flags
are false. -/
theorem C2_chi2flags_exclusive_exhaustive_iff (a b : ℚ) :
    ¬((chi2flags a b).1 = true ∧ (chi2flags a b).2 = true) ∧
      (((chi2flags a b).1 = true ∨ (chi2flags a b).2 = true) ↔ a ≠ b) := by
  simp only [chi2flags, decide_eq_true_eq, gt_iff_lt]
  constructor
  · rintro ⟨h1, h2⟩
    exact absurd h2 (not_lt.mpr (le_of_lt h1))
  · constructor
    · rintro (h1 | h2)
      · exact ne_of_lt h1
      · exact ne_of_gt h2
    · intro hne
      rcases lt_trichotomy a b with h | h | h
      · exact Or.inl h
      · exact absurd h hne
      · exact Or.inr h

/-- C3, counterexample: on a non-numeric input `clean3sigma` does not fail —
it returns the `np.nan` sentinel as an ordinary value, so no TypeError
surfaces to the caller. -/
theorem C3_clean3sigma_no_error_counterexample :
    clean3sigma none true = Except.ok PyVal.nanVal ∧
      ¬∃ e, clean3sigma none true = Except.error e := by
  refine ⟨rfl, ?_⟩
  rintro ⟨e, he⟩
  cases he

/-- C3, amended: on a non-numeric input `clean3sigma` catches the `TypeError`
raised by `np.mean`, prints a message, and returns NaN as an ordinary value in
either mode; no error reaches the caller and no mask or filtered array is
produced. -/
theorem C3_clean3sigma_returns_nan (mask : Bool) :
    clean3sigma none mask = Except.ok PyVal.nanVal := rfl

/-- C7, counterexample: for the length-2 edge sequence [0, 0] the midpoint
equals both edges, so the returned value does not lie strictly between its two
source edges. -/
theorem C7_var_interv_strict_counterexample :
    var_interv [0, 0] = [0] ∧
      ¬(([0, 0] : List ℚ).getD 0 0 < (var_interv [0, 0]).getD 0 0 ∧
        (var_interv [0, 0]).getD 0 0 < ([0, 0] : List ℚ).getD 1 0) := by
  constructor
  · norm_num [var_interv, List.range_succ]
  · rintro ⟨h1, _⟩
    exact absurd h1 (by norm_num [var_interv, List.range_succ])

/-- C7, amended: the midpoint sequence has length n − 1 and
midpoint[i] = (edges[i] + edges[i+1]) / 2 for every edge sequence; each
midpoint lies strictly between its two source edges whenever those two edges
are strictly increasing. -/
theorem C7_var_interv_spec (d : List ℚ) (i : ℕ) (hi : i + 1 < d.length) :
    (var_interv d).length = d.length - 1 ∧
      (var_interv d).getD i 0 = (d.getD i 0 + d.getD (i + 1) 0) / 2 ∧
      (d.getD i 0 < d.getD (i + 1) 0 →
        d.getD i 0 < (var_interv d).getD i 0 ∧
          (var_interv d).getD i 0 < d.getD (i + 1) 0) := by
  have hlen : (var_interv d).length = d.length - 1 := by
    simp [var_interv]
  have hi' : i < (var_interv d).length := by omega
  have hget : (var_interv d).getD i 0 = (d.getD i 0 + d.getD (i + 1) 0) / 2 := by
    rw [List.getD_eq_getElem (var_interv d) 0 hi']
    simp only [var_interv, List.getElem_map, List.getElem_range]
  refine ⟨hlen, hget, ?_⟩
  intro hlt
  rw [hget]
  constructor <;> linarith

/-- C7 witness at edges = [0, 2, 4, 6], i = 1. -/
theorem C7_var_interv_spec_witness :
    (var_interv [0, 2, 4, 6]).length = ([0, 2, 4, 6] : List ℚ).length - 1 ∧
      (var_interv [0, 2, 4, 6]).getD 1 0 =
        (([0, 2, 4, 6] : List ℚ).getD 1 0 + ([0, 2, 4, 6] : List ℚ).getD 2 0) / 2 ∧
      (([0, 2, 4, 6] : List ℚ).getD 1 0 < ([0, 2, 4, 6] : List ℚ).getD 2 0 →
        ([0, 2, 4, 6] : List ℚ).getD 1 0 < (var_interv [0, 2, 4, 6]).getD 1 0 ∧
          (var_interv [0, 2, 4, 6]).getD 1 0 < ([0, 2, 4, 6] : List ℚ).getD 2 0) :=
  C7_var_interv_spec [0, 2, 4, 6] 1 (by norm_num)

/-- C8: code bug — `conf_level` can never return a confidence interval: the
`std` branch reads the unbound name `self.alpha` and the `var` branch the
unbound name `alpha` (and the returned record would also read `conf_range`,
unbound in the `var` branch), so every call on a numeric sample raises
`NameError` instead of producing bounds around the mean. -/
theorem C8_conf_level_raises_nameerror :
    conf_level (some [1, 2, 3]) "std" = Except.error PyError.nameError ∧
      conf_level (some [1, 2, 3]) "var" = Except.error PyError.nameError :=
  ⟨rfl, rfl⟩

/-- C9: `phi` computes the standard normal density
φ(u) = (1/√(2π))·e^(−u²/2), is symmetric in u, and φ(0) = 1/√(2π); the
spurious `self` parameter has no effect on the result. -/
theorem C9_phi_density_spec (self : Unit) (u : ℝ) :
    phi self u = 1 / Real.sqrt (2 * Real.pi) * Real.exp (-(u ^ 2) / 2) ∧
      phi self u = phi self (-u) ∧
      phi self 0 = 1 / Real.sqrt (2 * Real.pi) := by
  refine ⟨?_, ?_, ?_⟩
  · unfold phi
    rw [Real.exp_one_rpow]
  · unfold phi
    rw [neg_sq]
  · unfold phi
    rw [Real.exp_one_rpow]
    norm_num

/-- The population variance `npVar` is a mean of squares, hence nonnegative. -/
theorem npVar_nonneg (d : List ℚ) : 0 ≤ npVar d := by
  unfold npVar
  apply div_nonneg
  · apply List.sum_nonneg
    intro x hx
    rcases List.mem_map.mp hx with ⟨y, _, rfl⟩
    positivity
  · exact Nat.cast_nonneg _

/-- C6: on a non-empty sample, `clean3sigma` in mask mode returns a boolean
mask whose i-th entry is true exactly when |x[i] − μ| ≤ σ, where μ is the
sample mean and σ = √(npVar d) the population standard deviation of the full
sample — a 1-sigma threshold. -/
theorem C6_clean3sigma_mask_spec (d : List ℚ) (i : ℕ) (hi : i < d.length) :
    ∃ msk, clean3sigma (some d) true = Except.ok (PyVal.mask msk) ∧
      (msk.getD i false = true ↔
        |((d.getD i 0 : ℚ) : ℝ) - ((npMean d : ℚ) : ℝ)| ≤
          Real.sqrt ((npVar d : ℚ) : ℝ)) := by
  refine ⟨data_mask d, rfl, ?_⟩
  have hlen : i < (data_mask d).length := by simpa [data_mask] using hi
  rw [List.getD_eq_getElem (data_mask d) false hlen, List.getD_eq_getElem d 0 hi]
  simp only [data_mask, List.getElem_map, decide_eq_true_eq]
  have hv : (0 : ℝ) ≤ ((npVar d : ℚ) : ℝ) := by exact_mod_cast npVar_nonneg d
  rw [Real.le_sqrt (abs_nonneg _) hv, sq_abs]
  constructor
  · intro hq; exact_mod_cast hq
  · intro hq; exact_mod_cast hq

/-- C6 witness at the sample [1, 2, 3] and index 0. -/
theorem C6_clean3sigma_mask_spec_witness :
    (0 : ℕ) < ([1, 2, 3] : List ℚ).length ∧
      ∃ msk, clean3sigma (some [1, 2, 3]) true = Except.ok (PyVal.mask msk) ∧
        (msk.getD 0 false = true ↔
          |((([1, 2, 3] : List ℚ).getD 0 0 : ℚ) : ℝ) -
              ((npMean [1, 2, 3] : ℚ) : ℝ)| ≤
            Real.sqrt ((npVar [1, 2, 3] : ℚ) : ℝ)) :=
  ⟨by norm_num, C6_clean3sigma_mask_spec [1, 2, 3] 0 (by norm_num)⟩

end Pypengie
